import Mathlib

/-!
Verification of the activity-scraper core (src/main.rs, src/github.rs,
src/twitter.rs) against its natural-language specification.

Modelling conventions:
- Rust strings are `List Char`; byte offsets and character offsets coincide
  in this model (the texts involved are treated as ASCII).
- Machine integers are `Nat`/`Int`, with explicit wraparound modulo 2^64
  where the code relies on `usize` arithmetic (release-build semantics).
- Fallible Rust code returns `Except`/`Option`; a panic is modelled as
  `none` of an `Option`-valued step.
- Recursive text scanners are fuel-driven (the fuel is always instantiated
  with a provably sufficient bound) so that every definition reduces inside
  the kernel.
-/

instance {ε α : Type _} [DecidableEq ε] [DecidableEq α] : DecidableEq (Except ε α) :=
  fun x y =>
  match x, y with
  | .ok a, .ok b =>
    if h : a = b then isTrue (h ▸ rfl) else isFalse (fun hc => h (Except.ok.inj hc))
  | .ok _, .error _ => isFalse (fun hc => Except.noConfusion hc)
  | .error _, .ok _ => isFalse (fun hc => Except.noConfusion hc)
  | .error e, .error f =>
    if h : e = f then isTrue (h ▸ rfl) else isFalse (fun hc => h (Except.error.inj hc))

/-- Auxiliary scanner for Rust `str::replace`, fuel-driven: scans `s` left to
right, replacing each non-overlapping occurrence of `pat` with `rep`. Every
step consumes at least one character of `s`, so fuel `s.length` suffices. -/
def replaceAllAux (pat rep : List Char) : Nat → List Char → List Char
  | 0, s => s
  | _ + 1, [] => []
  | fuel + 1, c :: cs =>
    if pat.isPrefixOf (c :: cs) then
      rep ++ replaceAllAux pat rep fuel (List.drop (pat.length - 1) cs)
    else
      c :: replaceAllAux pat rep fuel cs

/-- Rust `str::replace`: replaces every non-overlapping occurrence of `pat`
in `s` by `rep`, scanning left to right. The program never calls it with an
empty pattern; that degenerate case is mapped to the identity. -/
def replaceAll (s pat rep : List Char) : List Char :=
  if pat.isEmpty then s else replaceAllAux pat rep s.length s

/-- Whether `pat` occurs as a contiguous substring of `s`. -/
def hasSub : List Char → List Char → Bool
  | [], pat => pat.isEmpty
  | c :: cs, pat => pat.isPrefixOf (c :: cs) || hasSub cs pat

/-- `main.rs markdown_link_title_escape`: escape the three characters that
would break a markdown link title, by three successive `replace` calls. -/
def markdown_link_title_escape (s : List Char) : List Char :=
  replaceAll (replaceAll (replaceAll s "\"".data "&#34;".data) "(".data "&#40;".data)
    ")".data "&#41;".data

/-- `main.rs DateTime`: the per-item metadata serialized with each feed
entry. `ts` models the parsed `chrono::NaiveDateTime` as an integer. -/
structure DateTime where
  url : List Char
  action : List Char
  ts : Int
deriving DecidableEq

/-- `main.rs Activity`: one unified feed item. -/
structure Activity where
  activity_type : List Char
  content : List Char
  datetime : DateTime
deriving DecidableEq

/-- `Activity::new`. -/
def Activity.new (activity_type content : List Char) (datetime : DateTime) : Activity :=
  { activity_type := activity_type, content := content, datetime := datetime }

/-- The descending-timestamp order used by the feed sort: `a` may precede `b`
exactly when `b.datetime.ts.cmp(&a.datetime.ts)` is not `Greater`. -/
def tsGE (a b : Activity) : Prop := b.datetime.ts ≤ a.datetime.ts

instance : DecidableRel tsGE := fun a b =>
  inferInstanceAs (Decidable (b.datetime.ts ≤ a.datetime.ts))

/-- Insertion into a descending-by-timestamp list, placing the new element
before the first entry whose timestamp is not larger. -/
def insertByTs (a : Activity) : List Activity → List Activity
  | [] => [a]
  | b :: bs =>
    if b.datetime.ts ≤ a.datetime.ts then a :: b :: bs else b :: insertByTs a bs

/-- `main.rs` `feed.sort_by(|a, b| b.datetime.ts.cmp(&a.datetime.ts))`.
Rust `sort_by` is a stable sort; for a total comparator every stable sort
yields the same list, so stable insertion sort is an extensionally faithful
model of it. -/
def sortFeed (feed : List Activity) : List Activity :=
  feed.foldr insertByTs []

/-- Rust slice expression `&feed[0..12]`: defined only when the vector holds
at least 12 items; slicing a shorter vector panics, modelled as `none`. -/
def sliceTo12 (feed : List Activity) : Option (List Activity) :=
  if 12 ≤ feed.length then some (feed.take 12) else none

/-- One provider's contribution in `main`: an `Ok` list is appended to the
feed, an `Err` is logged and contributes nothing. -/
def providerItems (r : Except (List Char) (List Activity)) : List Activity :=
  match r with
  | .ok xs => xs
  | .error _ => []

/-- The feed assembled by `main` from the three provider results, in the
order the providers are invoked (twitter, github, dribbble). -/
def assembleFeed (tw gh dr : Except (List Char) (List Activity)) : List Activity :=
  providerItems tw ++ providerItems gh ++ providerItems dr

/-- The tail of `main`: assemble the feed, sort it by timestamp descending,
slice to the first 12 entries for serialization. `none` models the panic of
the out-of-bounds slice. -/
def mainRun (tw gh dr : Except (List Char) (List Activity)) : Option (List Activity) :=
  sliceTo12 (sortFeed (assembleFeed tw gh dr))

/-- The generic JSON tree (`serde_json::Value`); numbers are modelled as
integers, which covers every numeric payload field the program reads. -/
inductive Json where
  | null
  | bool (b : Bool)
  | num (n : Int)
  | str (s : List Char)
  | arr (elems : List Json)
  | obj (fields : List (List Char × Json))

/-- `serde_json Value::get` with a string key: a lookup in an object's map,
`none` on every other node. -/
def Json.getKey : Json → List Char → Option Json
  | .obj fields, key => (fields.find? (fun f => f.1 == key)).map (fun f => f.2)
  | _, _ => none

/-- `serde_json Value::as_str`. -/
def Json.as_str : Json → Option (List Char)
  | .str s => some s
  | _ => none

/-- `serde_json Value::as_i64`: the number when it is an integer within the
signed 64-bit range. -/
def Json.as_i64 : Json → Option Int
  | .num n => if -(2 ^ 63) ≤ n ∧ n < 2 ^ 63 then some n else none
  | _ => none

/-- `github.rs GHKeyError`: carries the key path (or uncaught event type)
that failed. -/
structure GHKeyError where
  keypath : List Char
deriving DecidableEq

namespace Github

/-- Walk of the dot-separated key list inside `github.rs get`: each missing
key fails with that single key as the keypath. -/
def walkKeys : Json → List (List Char) → Except GHKeyError Json
  | v, [] => .ok v
  | v, key :: rest =>
    match v.getKey key with
    | some v2 => walkKeys v2 rest
    | none => .error ⟨key⟩

/-- `github.rs get`: walk `value` along the dotted `path` key by key, then
require a string leaf; a non-string leaf fails with the whole path as the
keypath. -/
def get (value : Json) (path : List Char) : Except GHKeyError (List Char) := do
  let v ← walkKeys value (path.splitOn '.')
  match v.as_str with
  | some s => .ok s
  | none => .error ⟨path⟩

/-- `github.rs Repository`. -/
structure Repository where
  name : List Char
  url : List Char
deriving DecidableEq

/-- `github.rs GitHubActivity` after deserialization (`created_at` already
parsed to a timestamp). -/
structure GitHubActivity where
  action : List Char
  repo : Repository
  payload : Json
  created_at : Int

/-- The separator `"\n\n> On"` on which `clean_text` splits off quoted
reply text. -/
def quoteSep : List Char := "\n\n> On".data

/-- First piece of Rust `s.split(pat)`: the text before the first occurrence
of `pat`, or all of `s` when `pat` does not occur. -/
def cutBefore (pat : List Char) : List Char → List Char
  | [] => []
  | c :: cs => if pat.isPrefixOf (c :: cs) then [] else c :: cutBefore pat cs

/-- `usize` modulus. -/
def USIZE : Nat := 2 ^ 64

/-- One iteration of the link loop of `clean_text`, for a link found at byte
offset `link.1` with text `link.2`. The Rust code computes
`link.start() - 2` on a `usize`; in a release build that subtraction wraps
modulo 2^64, modelled explicitly here. A link whose preceding character two
positions back is `]` (and whose wrapped offset is positive) is skipped as
already-markdown; every other link is rewritten to `[link](link)`. -/
def linkStep (text : List Char) (link : Nat × List Char) : List Char :=
  let start := (link.1 + (USIZE - 2)) % USIZE
  if 0 < start ∧ text[start]? = some ']' then text
  else replaceAll text link.2 ("[".data ++ link.2 ++ "](".data ++ link.2 ++ ")".data)

/-- The link loop of `clean_text` over the list of found links (a Rust
`for` loop threading the mutable `text`, i.e. a left fold). -/
def linkPass (text : List Char) (links : List (Nat × List Char)) : List Char :=
  links.foldl linkStep text

/-- Character class of the regex fragment `[\w_-]` (word character,
underscore or hyphen) used by the mention pattern. -/
def isMentionChar (c : Char) : Bool := c.isAlphanum || c = '_' || c = '-'

/-- Fuel-driven scan for all matches of the mention regex `(@[\w_-]+)`:
leftmost, non-overlapping, each match maximal. Fuel `text.length`
suffices since every step consumes at least one character. -/
def findMentionsAux : Nat → List Char → List (List Char)
  | 0, _ => []
  | _ + 1, [] => []
  | fuel + 1, c :: cs =>
    if c = '@' then
      let run := cs.takeWhile isMentionChar
      if run.isEmpty then findMentionsAux fuel cs
      else ('@' :: run) :: findMentionsAux fuel (cs.drop run.length)
    else findMentionsAux fuel cs

/-- All matches of `SOCIAL_MENTION_REGEX` in `text`. -/
def findMentions (text : List Char) : List (List Char) :=
  findMentionsAux text.length text

/-- One iteration of the mention loop of `clean_text`: rewrite `@name` to a
profile link. -/
def mentionStep (text mention : List Char) : List Char :=
  replaceAll text mention
    ("[".data ++ mention ++ "](https://github.com/".data
      ++ replaceAll mention "@".data "".data ++ ")".data)

/-- The mention loop of `clean_text` (a left fold, like the source's `for`
loop over the collected matches). -/
def mentionPass (text : List Char) (mentions : List (List Char)) : List Char :=
  mentions.foldl mentionStep text

/-- `github.rs clean_text`, parameterized by the external `linkify`
`LinkFinder` (`lf s` lists the links of `s` as offset and text pairs; the
crate is outside this repository, so the finder is kept abstract and the
claims quantify over the detected links). Keeps the text before any quoted
reply, markdown-ifies links found in the original `s`, then links
`@mentions` found in the resulting text; the hashtag loop of the source is
commented out and contributes nothing. -/
def clean_text (lf : List Char → List (Nat × List Char)) (s : List Char) : List Char :=
  let text := cutBefore quoteSep s
  let text := linkPass text (lf s)
  mentionPass text (findMentions text)

end Github

namespace Github

/-- `github.rs patch_text`: closed dispatch on the event type discriminant,
producing the markdown content string or a `GHKeyError` (which makes the
surrounding loop skip the event). Field fetches happen in the source's
evaluation order. `lf` is the external link finder used by `clean_text`. -/
def patch_text (lf : List Char → List (Nat × List Char)) (activity : GitHubActivity) :
    Except GHKeyError (List Char) :=
  if activity.action = "CommitCommentEvent".data then do
    let body ← get activity.payload "comment.body".data
    .ok (clean_text lf body ++ " on [".data ++ activity.repo.name ++ "](".data
      ++ activity.repo.url ++ " \"View ".data
      ++ markdown_link_title_escape activity.repo.name ++ " on GitHub\")".data)
  else if activity.action = "IssueCommentEvent".data then do
    let action ← get activity.payload "action".data
    if action ≠ "created".data then .error ⟨"IssueCommentEvent.payload.action".data⟩ else do
      let title ← get activity.payload "issue.title".data
      let body ← get activity.payload "comment.body".data
      let htmlUrl ← get activity.payload "issue.html_url".data
      .ok (clean_text lf body ++ " on [".data ++ title ++ "](".data ++ htmlUrl
        ++ " \"View ".data ++ markdown_link_title_escape title ++ " on GitHub\")".data)
  else if activity.action = "ForkEvent".data then do
    let full_name ← get activity.payload "forkee.full_name".data
    let forkeeUrl ← get activity.payload "forkee.html_url".data
    .ok ("Forked [@".data ++ activity.repo.name ++ "](https://github.com/".data
      ++ activity.repo.name ++ " \"View ".data ++ activity.repo.name
      ++ " on GitHub\") to [@".data ++ full_name ++ "](".data ++ forkeeUrl
      ++ " \"View ".data ++ markdown_link_title_escape full_name ++ " on GitHub\")".data)
  else if activity.action = "CreateEvent".data then do
    let refType ← get activity.payload "ref_type".data
    if refType = "repository".data then
      .ok ("Created [@".data ++ activity.repo.name ++ "](https://github.com/".data
        ++ activity.repo.name ++ " \"View ".data
        ++ markdown_link_title_escape activity.repo.name ++ " on GitHub\")".data)
    else .error ⟨"CreateEvent.ref_type".data⟩
  else if activity.action = "IssuesEvent".data then do
    let action ← get activity.payload "action".data
    if action = "opened".data then do
      let title ← get activity.payload "issue.title".data
      let repo ← get activity.payload "repository.full_name".data
      let htmlUrl ← get activity.payload "issue.html_url".data
      .ok ("Opened [".data ++ title ++ "](".data ++ htmlUrl ++ " \"View ".data
        ++ markdown_link_title_escape title ++ " on GitHub\") in [@".data ++ repo
        ++ "](https://github.com/".data ++ repo ++ " \"View ".data
        ++ markdown_link_title_escape repo ++ " on GitHub\")".data)
    else if action = "closed".data then do
      let title ← get activity.payload "issue.title".data
      let htmlUrl ← get activity.payload "issue.html_url".data
      .ok ("Closed [".data ++ title ++ "](".data ++ htmlUrl ++ " \"View ".data
        ++ markdown_link_title_escape title ++ " on GitHub\") in [@".data
        ++ activity.repo.name ++ "](https://github.com/".data ++ activity.repo.name
        ++ " \"View ".data ++ markdown_link_title_escape activity.repo.name
        ++ " on GitHub\")".data)
    else .error ⟨"IssuesEvent.action".data⟩
  else if activity.action = "PullRequestEvent".data then do
    let action ← get activity.payload "action".data
    if action = "opened".data then do
      let full_name ← get activity.payload "pull_request.base.repo.full_name".data
      let title ← get activity.payload "pull_request.title".data
      let htmlUrl ← get activity.payload "pull_request.html_url".data
      .ok ("Opened a pull request in [@".data ++ full_name ++ "](https://github.com/".data
        ++ full_name ++ " \"View ".data ++ full_name ++ " on GitHub\"):\n\n[".data
        ++ title ++ "](".data ++ htmlUrl ++ " \"View this PR on GitHub\")".data)
    else if action = "closed".data then do
      let full_name ← get activity.payload "pull_request.base.repo.full_name".data
      let title ← get activity.payload "pull_request.title".data
      let htmlUrl ← get activity.payload "pull_request.html_url".data
      .ok ("Closed a pull request in [@".data ++ full_name ++ "](https://github.com/".data
        ++ full_name ++ " \"View ".data ++ full_name ++ " on GitHub\"):\n\n[".data
        ++ title ++ "](".data ++ htmlUrl ++ " \"View this PR on GitHub\")".data)
    else .error ⟨"PullRequestEvent.action".data⟩
  else if activity.action = "PushEvent".data then do
    let sizeVal ← match activity.payload.getKey "distinct_size".data with
      | some v => Except.ok v
      | none => Except.error ⟨"PushEvent.distinct_size".data⟩
    let no ← match sizeVal.as_i64 with
      | some n => Except.ok n
      | none => Except.error ⟨"PushEvent.distinct_size.parser_error".data⟩
    let beforeRef ← get activity.payload "before".data
    let headRef ← get activity.payload "head".data
    let compare_url := "https://github.com/".data ++ activity.repo.name ++ "/compare/".data
      ++ beforeRef ++ "...".data ++ headRef
    .ok ("Pushed [".data ++ (toString no).data ++ " commit".data
      ++ (if no = 1 then [] else "s".data) ++ "](".data ++ compare_url
      ++ " \"View these changes on GitHub\") to [@".data ++ activity.repo.name
      ++ "](https://github.com/".data ++ activity.repo.name ++ " \"View ".data
      ++ markdown_link_title_escape activity.repo.name ++ " on GitHub\")".data)
  else if activity.action = "PublicEvent".data then do
    let full_name ← get activity.payload "repository.full_name".data
    .ok ("Open sourced [@".data ++ full_name ++ "](https://github.com/".data ++ full_name
      ++ " \"View ".data ++ markdown_link_title_escape full_name ++ " on GitHub\")".data)
  else if activity.action = "ReleaseEvent".data then do
    let full_name ← get activity.payload "repository.full_name".data
    let tag ← get activity.payload "release.tag_name".data
    let htmlUrl ← get activity.payload "release.html_url".data
    .ok ("Released [@".data ++ full_name ++ " ".data ++ tag ++ "](".data ++ htmlUrl
      ++ " \"View this release on GitHub\")".data)
  else
    .error ⟨activity.action⟩

/-- The discriminant values `patch_text` handles; every other event type
falls through to the uncaught arm. -/
def supportedActions : List (List Char) :=
  ["CommitCommentEvent".data, "IssueCommentEvent".data, "ForkEvent".data,
    "CreateEvent".data, "IssuesEvent".data, "PullRequestEvent".data,
    "PushEvent".data, "PublicEvent".data, "ReleaseEvent".data]

/-- The conversion loop of `get_and_transform_activity_to_html`: events whose
`patch_text` fails are logged and skipped; successes become feed items with
the fixed `"github"` type, the `"On"` action label, an empty url and the
event timestamp. -/
def processActivities (lf : List Char → List (Nat × List Char)) :
    List GitHubActivity → List Activity
  | [] => []
  | activity :: rest =>
    match patch_text lf activity with
    | .error _ => processActivities lf rest
    | .ok content =>
      Activity.new "github".data content
        { action := "On".data, url := "".data, ts := activity.created_at }
        :: processActivities lf rest

end Github

namespace Github

/-- Gregorian leap-year rule. -/
def isLeapYear (y : Nat) : Bool := (y % 4 == 0 && y % 100 != 0) || y % 400 == 0

/-- Days in a month of the proleptic Gregorian calendar. -/
def daysInMonth (y m : Nat) : Nat :=
  if m = 2 then (if isLeapYear y then 29 else 28)
  else if m = 4 ∨ m = 6 ∨ m = 9 ∨ m = 11 then 30
  else 31

/-- The two-digit decimal field of `s` at positions `i` and `i + 1`. -/
def fieldAt (s : List Char) (i : Nat) : Nat :=
  ((s.getD i '0').toNat - 48) * 10 + ((s.getD (i + 1) '0').toNat - 48)

/-- Positions that must hold decimal digits in `YYYY-MM-DDTHH:MM:SSZ`. -/
def digitSlots : List Nat := [0, 1, 2, 3, 5, 6, 8, 9, 11, 12, 14, 15, 17, 18]

/-- Modelled from the spec: the Timestamp Normalizer's parse step for the
GitHub format string `%Y-%m-%dT%H:%M:%SZ` (the parser itself lives in the
external chrono crate, not in this repository). Accepts exactly
`YYYY-MM-DDTHH:MM:SSZ`, fully consumed, with a calendar-valid date and time
of day, returning an injective encoding of the six fields; any other string
fails to parse. -/
def parseGithubTimestamp (s : List Char) : Option Int :=
  let year := fieldAt s 0 * 100 + fieldAt s 2
  let month := fieldAt s 5
  let day := fieldAt s 8
  let hour := fieldAt s 11
  let minute := fieldAt s 14
  let second := fieldAt s 17
  if s.length = 20 ∧ (∀ i ∈ digitSlots, (s.getD i ' ').isDigit)
      ∧ s.getD 4 ' ' = '-' ∧ s.getD 7 ' ' = '-' ∧ s.getD 10 ' ' = 'T'
      ∧ s.getD 13 ' ' = ':' ∧ s.getD 16 ' ' = ':' ∧ s.getD 19 ' ' = 'Z'
      ∧ 1 ≤ month ∧ month ≤ 12 ∧ 1 ≤ day ∧ day ≤ daysInMonth year month
      ∧ hour ≤ 23 ∧ minute ≤ 59 ∧ second ≤ 59 then
    some (Int.ofNat (((((year * 12 + month) * 32 + day) * 24 + hour) * 60 + minute)
      * 60 + second))
  else none

/-- A GitHub event as it appears on the wire, before the `created_at`
string has been parsed. -/
structure RawGitHubActivity where
  action : List Char
  repo : Repository
  payload : Json
  created_at : List Char

/-- serde deserialization of one raw event: `deserialize_github_timestamp`
is applied to `created_at`, and its failure fails the element (and hence,
below, the whole vector). -/
def deserializeActivity (r : RawGitHubActivity) : Except (List Char) GitHubActivity :=
  match parseGithubTimestamp r.created_at with
  | some ts =>
    .ok { action := r.action, repo := r.repo, payload := r.payload, created_at := ts }
  | none => .error ("timestamp parse error: ".data ++ r.created_at)

/-- serde deserialization of `Vec<GitHubActivity>`: element by element,
fail-fast — the first element whose custom `created_at` deserializer fails
makes the whole vector, and hence the provider's `.json()?` call, fail. -/
def deserializeBatch : List RawGitHubActivity → Except (List Char) (List GitHubActivity)
  | [] => .ok []
  | r :: rest => do
    let a ← deserializeActivity r
    let others ← deserializeBatch rest
    .ok (a :: others)

/-- The GitHub provider from the point the activity response body is in
hand: deserialize the whole response (fail-fast), then run the conversion
loop. An error here is caught in `main`, where it makes the provider
contribute zero items. -/
def providerRun (lf : List Char → List (Nat × List Char)) (raws : List RawGitHubActivity) :
    Except (List Char) (List Activity) :=
  (deserializeBatch raws).map (processActivities lf)

end Github

namespace Twitter

/-- `twitter.rs Url` entity (the fields `patch_text` reads). -/
structure Url where
  url : List Char
  display_url : List Char
  expanded_url : List Char
deriving DecidableEq

/-- `twitter.rs HashTag` entity. -/
structure HashTag where
  text : List Char
deriving DecidableEq

/-- `twitter.rs UserMention` entity. -/
structure UserMention where
  screen_name : List Char
deriving DecidableEq

/-- `twitter.rs Media` entity (the fields `patch_text` reads). -/
structure Media where
  url : List Char
  display_url : List Char
  expanded_url : List Char
deriving DecidableEq

/-- `twitter.rs Tweet`, restricted to the fields `patch_text` reads.
`retweeted_status` models the optional raw sub-record together with the
outcome of re-deserializing it as a `Tweet`: `some (some rt)` when present
and deserializable, `some none` when present but failing
`serde_json::from_value` (the code then falls through to the ordinary entity
passes), `none` when absent. -/
inductive Tweet where
  | mk (full_text : List Char) (screen_name : List Char)
      (user_mentions : List UserMention) (hashtags : List HashTag) (urls : List Url)
      (media : Option (List Media)) (extended_media : Option (List Media))
      (retweeted_status : Option (Option Tweet))

/-- The tweet's primary text. -/
def Tweet.full_text : Tweet → List Char
  | .mk ft _ _ _ _ _ _ _ => ft

/-- The author's screen name (`tweet.user.screen_name`). -/
def Tweet.screen_name : Tweet → List Char
  | .mk _ sn _ _ _ _ _ _ => sn

/-- One step of the user-mention loop of `twitter.rs patch_text`. -/
def mentionStep (text : List Char) (m : UserMention) : List Char :=
  replaceAll text ("@".data ++ m.screen_name)
    ("[@".data ++ m.screen_name ++ "](https://twitter.com/".data ++ m.screen_name
      ++ " \"View @".data ++ markdown_link_title_escape m.screen_name
      ++ " on Twitter\")".data)

/-- The user-mention loop of `twitter.rs patch_text`. -/
def mentionsPass (text : List Char) (ms : List UserMention) : List Char :=
  ms.foldl mentionStep text

/-- One step of the hashtag loop of `twitter.rs patch_text`. -/
def hashtagStep (text : List Char) (h : HashTag) : List Char :=
  replaceAll text ("#".data ++ h.text)
    ("[#".data ++ h.text ++ "](https://twitter.com/hashtag/".data ++ h.text
      ++ " \"View #".data ++ markdown_link_title_escape h.text
      ++ " on Twitter\")".data)

/-- The hashtag loop of `twitter.rs patch_text`. -/
def hashtagsPass (text : List Char) (hs : List HashTag) : List Char :=
  hs.foldl hashtagStep text

/-- One step of the url-entity loop of `twitter.rs patch_text`. -/
def urlStep (text : List Char) (u : Url) : List Char :=
  replaceAll text u.url
    ("[".data ++ u.display_url ++ "](".data ++ u.expanded_url ++ ")".data)

/-- The url-entity loop of `twitter.rs patch_text`. -/
def urlsPass (text : List Char) (us : List Url) : List Char :=
  us.foldl urlStep text

/-- One step of the basic-media loop of `twitter.rs patch_text`: the media
url is replaced with the empty string. -/
def mediaStep (text : List Char) (m : Media) : List Char :=
  replaceAll text m.url []

/-- The basic-media loop of `twitter.rs patch_text`. -/
def mediaPass (text : List Char) (ms : List Media) : List Char :=
  ms.foldl mediaStep text

/-- One step of the extended-media loop of `twitter.rs patch_text`: the
media url is replaced with a link built from the display url. -/
def extendedMediaStep (text : List Char) (m : Media) : List Char :=
  replaceAll text m.url
    ("[https://".data ++ m.display_url ++ "](https://".data ++ m.display_url
      ++ ")".data)

/-- The extended-media loop of `twitter.rs patch_text`. -/
def extendedMediaPass (text : List Char) (ms : List Media) : List Char :=
  ms.foldl extendedMediaStep text

/-- `twitter.rs patch_text`: a deserializable retweet is re-rendered
recursively behind an `RT` header; otherwise the entity passes run in source
order — mentions, hashtags, urls, basic media (replaced with the empty
string), then extended media (replaced with a display-url link). -/
def patch_text : List Char → Tweet → List Char
  | _text, .mk _ft _sn _ums _hts _urls _md _emd (some (some retweet)) =>
    "RT [@".data ++ retweet.screen_name ++ "](https://twitter.com/".data
      ++ retweet.screen_name ++ " \"View ".data
      ++ markdown_link_title_escape retweet.screen_name ++ " on Twitter\") ".data
      ++ patch_text retweet.full_text retweet
  | text, .mk _ft _sn ums hts urls md emd _ =>
    let text := mentionsPass text ums
    let text := hashtagsPass text hts
    let text := urlsPass text urls
    let text :=
      match md with
      | some ms => mediaPass text ms
      | none => text
    match emd with
    | some ms => extendedMediaPass text ms
    | none => text

end Twitter


/-- The character-by-character substitution a single-character `replace`
performs. -/
def escMap (c0 : Char) (r0 : List Char) (c : Char) : List Char :=
  if c = c0 then r0 else [c]

lemma replaceAllAux_single (c0 : Char) (r0 : List Char) :
    ∀ (fuel : Nat) (s : List Char), s.length ≤ fuel →
      replaceAllAux [c0] r0 fuel s = s.flatMap (escMap c0 r0) := by
  intro fuel
  induction fuel with
  | zero =>
    intro s hs
    have h0 : s = [] := List.eq_nil_of_length_eq_zero (Nat.le_zero.mp hs)
    subst h0
    simp [replaceAllAux]
  | succ n ih =>
    intro s hs
    cases s with
    | nil => simp [replaceAllAux]
    | cons c cs =>
      have hcs : cs.length ≤ n := by
        simp only [List.length_cons] at hs
        omega
      by_cases h : c0 = c
      · subst h
        simp [replaceAllAux, escMap, List.isPrefixOf, ih _ hcs]
      · have h2 : ¬ c = c0 := fun hc => h hc.symm
        simp [replaceAllAux, escMap, List.isPrefixOf, h, h2, ih _ hcs]

lemma replaceAll_single (s : List Char) (c0 : Char) (r0 : List Char) :
    replaceAll s [c0] r0 = s.flatMap (escMap c0 r0) := by
  simp [replaceAll, replaceAllAux_single c0 r0 s.length s le_rfl]

lemma replaceAllAux_of_hasSub_false (pat rep : List Char) :
    ∀ (s : List Char) (fuel : Nat), hasSub s pat = false →
      replaceAllAux pat rep fuel s = s := by
  intro s
  induction s with
  | nil =>
    intro fuel h
    cases fuel <;> simp [replaceAllAux]
  | cons c cs ih =>
    intro fuel h
    cases fuel with
    | zero => simp [replaceAllAux]
    | succ n =>
      simp only [hasSub, Bool.or_eq_false_iff] at h
      simp [replaceAllAux, h.1, ih n h.2]

lemma replaceAll_of_hasSub_false (s pat rep : List Char) (h : hasSub s pat = false) :
    replaceAll s pat rep = s := by
  unfold replaceAll
  split
  · rfl
  · exact replaceAllAux_of_hasSub_false pat rep s s.length h


/-- Spec-side description of the Markdown-Title Escaper: each of the three
characters is rewritten independently, character by character, in the order
the spec lists them. -/
def escapeChar (c : Char) : List Char :=
  if c = '"' then "&#34;".data
  else if c = '(' then "&#40;".data
  else if c = ')' then "&#41;".data
  else [c]

/-- Spec-side Markdown-Title Escaper: the simultaneous character map. -/
def escapeSpec (s : List Char) : List Char := s.flatMap escapeChar

/-- The single `replace` pass for `"`. -/
def escQuote (s : List Char) : List Char := replaceAll s "\"".data "&#34;".data

/-- The single `replace` pass for `(`. -/
def escOpen (s : List Char) : List Char := replaceAll s "(".data "&#40;".data

/-- The single `replace` pass for `)`. -/
def escClose (s : List Char) : List Char := replaceAll s ")".data "&#41;".data

lemma markdown_link_title_escape_eq_passes (s : List Char) :
    markdown_link_title_escape s = escClose (escOpen (escQuote s)) := rfl

lemma escQuote_eq_flatMap (s : List Char) :
    escQuote s = s.flatMap (escMap '"' "&#34;".data) :=
  replaceAll_single s '"' "&#34;".data

lemma escOpen_eq_flatMap (s : List Char) :
    escOpen s = s.flatMap (escMap '(' "&#40;".data) :=
  replaceAll_single s '(' "&#40;".data

lemma escClose_eq_flatMap (s : List Char) :
    escClose s = s.flatMap (escMap ')' "&#41;".data) :=
  replaceAll_single s ')' "&#41;".data

lemma flatMap_escMap_of_notMem (c0 : Char) (r0 l : List Char) (h : ∀ x ∈ l, x ≠ c0) :
    l.flatMap (escMap c0 r0) = l := by
  induction l with
  | nil => rfl
  | cons x xs ih =>
    simp only [List.flatMap_cons, escMap, h x (List.mem_cons_self x xs), if_false,
      ih (fun y hy => h y (List.mem_cons_of_mem x hy))]
    rfl

lemma comp3_escMap (a b c : Char) (ra rb rc : List Char)
    (hra_b : ∀ x ∈ ra, x ≠ b) (hra_c : ∀ x ∈ ra, x ≠ c) (hrb_c : ∀ x ∈ rb, x ≠ c)
    (x : Char) :
    ((escMap a ra x).flatMap (escMap b rb)).flatMap (escMap c rc)
      = if x = a then ra else if x = b then rb else if x = c then rc else [x] := by
  by_cases hxa : x = a
  · subst hxa
    rw [if_pos rfl]
    rw [show escMap x ra x = ra from if_pos rfl]
    rw [flatMap_escMap_of_notMem b rb ra hra_b, flatMap_escMap_of_notMem c rc ra hra_c]
  · rw [if_neg hxa, show escMap a ra x = [x] from if_neg hxa]
    by_cases hxb : x = b
    · subst hxb
      rw [if_pos rfl]
      have h1 : ([x] : List Char).flatMap (escMap x rb) = rb := by
        simp [escMap]
      rw [h1, flatMap_escMap_of_notMem c rc rb hrb_c]
    · rw [if_neg hxb]
      have h1 : ([x] : List Char).flatMap (escMap b rb) = [x] := by
        simp [escMap, hxb]
      rw [h1]
      by_cases hxc : x = c
      · subst hxc
        rw [if_pos rfl]
        simp [escMap]
      · rw [if_neg hxc]
        simp [escMap, hxc]

lemma triple_pass_eq (a b c : Char) (ra rb rc : List Char)
    (hra_b : ∀ x ∈ ra, x ≠ b) (hra_c : ∀ x ∈ ra, x ≠ c) (hrb_c : ∀ x ∈ rb, x ≠ c)
    (s : List Char) :
    ((s.flatMap (escMap a ra)).flatMap (escMap b rb)).flatMap (escMap c rc)
      = s.flatMap (fun x => if x = a then ra else if x = b then rb
          else if x = c then rc else [x]) := by
  rw [List.flatMap_assoc, List.flatMap_assoc]
  exact List.flatMap_congr (fun x _ =>
    (List.flatMap_assoc (escMap a ra x) (escMap b rb) (escMap c rc)).symm.trans
      (comp3_escMap a b c ra rb rc hra_b hra_c hrb_c x))


lemma tripIf_oclq (x : Char) :
    (if x = '(' then "&#40;".data else if x = ')' then "&#41;".data
      else if x = '"' then "&#34;".data else [x]) = escapeChar x := by
  by_cases h1 : x = '"'
  · subst h1; decide
  · by_cases h2 : x = '('
    · subst h2; decide
    · by_cases h3 : x = ')'
      · subst h3; decide
      · simp [escapeChar, h1, h2, h3]

lemma tripIf_qclo (x : Char) :
    (if x = '"' then "&#34;".data else if x = ')' then "&#41;".data
      else if x = '(' then "&#40;".data else [x]) = escapeChar x := by
  by_cases h1 : x = '"'
  · subst h1; decide
  · by_cases h2 : x = '('
    · subst h2; decide
    · by_cases h3 : x = ')'
      · subst h3; decide
      · simp [escapeChar, h1, h2, h3]

lemma tripIf_oqcl (x : Char) :
    (if x = '(' then "&#40;".data else if x = '"' then "&#34;".data
      else if x = ')' then "&#41;".data else [x]) = escapeChar x := by
  by_cases h1 : x = '"'
  · subst h1; decide
  · by_cases h2 : x = '('
    · subst h2; decide
    · by_cases h3 : x = ')'
      · subst h3; decide
      · simp [escapeChar, h1, h2, h3]

lemma tripIf_clqo (x : Char) :
    (if x = ')' then "&#41;".data else if x = '"' then "&#34;".data
      else if x = '(' then "&#40;".data else [x]) = escapeChar x := by
  by_cases h1 : x = '"'
  · subst h1; decide
  · by_cases h2 : x = '('
    · subst h2; decide
    · by_cases h3 : x = ')'
      · subst h3; decide
      · simp [escapeChar, h1, h2, h3]

lemma tripIf_cloq (x : Char) :
    (if x = ')' then "&#41;".data else if x = '(' then "&#40;".data
      else if x = '"' then "&#34;".data else [x]) = escapeChar x := by
  by_cases h1 : x = '"'
  · subst h1; decide
  · by_cases h2 : x = '('
    · subst h2; decide
    · by_cases h3 : x = ')'
      · subst h3; decide
      · simp [escapeChar, h1, h2, h3]

lemma escaper_eq_spec (s : List Char) : markdown_link_title_escape s = escapeSpec s := by
  rw [markdown_link_title_escape_eq_passes, escQuote_eq_flatMap]
  rw [escOpen_eq_flatMap, escClose_eq_flatMap]
  rw [triple_pass_eq '"' '(' ')' _ _ _ (by decide) (by decide) (by decide) s]
  rfl

lemma order_q_cl_o (s : List Char) : escOpen (escClose (escQuote s)) = escapeSpec s := by
  rw [escQuote_eq_flatMap, escClose_eq_flatMap, escOpen_eq_flatMap]
  rw [triple_pass_eq '"' ')' '(' _ _ _ (by decide) (by decide) (by decide) s]
  exact List.flatMap_congr (fun x _ => tripIf_qclo x)

lemma order_o_q_cl (s : List Char) : escClose (escQuote (escOpen s)) = escapeSpec s := by
  rw [escOpen_eq_flatMap, escQuote_eq_flatMap, escClose_eq_flatMap]
  rw [triple_pass_eq '(' '"' ')' _ _ _ (by decide) (by decide) (by decide) s]
  exact List.flatMap_congr (fun x _ => tripIf_oqcl x)

lemma order_o_cl_q (s : List Char) : escQuote (escClose (escOpen s)) = escapeSpec s := by
  rw [escOpen_eq_flatMap, escClose_eq_flatMap, escQuote_eq_flatMap]
  rw [triple_pass_eq '(' ')' '"' _ _ _ (by decide) (by decide) (by decide) s]
  exact List.flatMap_congr (fun x _ => tripIf_oclq x)

lemma order_cl_q_o (s : List Char) : escOpen (escQuote (escClose s)) = escapeSpec s := by
  rw [escClose_eq_flatMap, escQuote_eq_flatMap, escOpen_eq_flatMap]
  rw [triple_pass_eq ')' '"' '(' _ _ _ (by decide) (by decide) (by decide) s]
  exact List.flatMap_congr (fun x _ => tripIf_clqo x)

lemma order_cl_o_q (s : List Char) : escQuote (escOpen (escClose s)) = escapeSpec s := by
  rw [escClose_eq_flatMap, escOpen_eq_flatMap, escQuote_eq_flatMap]
  rw [triple_pass_eq ')' '(' '"' _ _ _ (by decide) (by decide) (by decide) s]
  exact List.flatMap_congr (fun x _ => tripIf_cloq x)

lemma escapeChar_no_specials (c x : Char) (hx : x ∈ escapeChar c) :
    x ≠ '"' ∧ x ≠ '(' ∧ x ≠ ')' := by
  unfold escapeChar at hx
  by_cases h1 : c = '"'
  · rw [if_pos h1] at hx
    exact (by decide : ∀ y ∈ "&#34;".data, y ≠ '"' ∧ y ≠ '(' ∧ y ≠ ')') x hx
  · rw [if_neg h1] at hx
    by_cases h2 : c = '('
    · rw [if_pos h2] at hx
      exact (by decide : ∀ y ∈ "&#40;".data, y ≠ '"' ∧ y ≠ '(' ∧ y ≠ ')') x hx
    · rw [if_neg h2] at hx
      by_cases h3 : c = ')'
      · rw [if_pos h3] at hx
        exact (by decide : ∀ y ∈ "&#41;".data, y ≠ '"' ∧ y ≠ '(' ∧ y ≠ ')') x hx
      · rw [if_neg h3] at hx
        rw [List.mem_singleton.mp hx]
        exact ⟨h1, h2, h3⟩

lemma insertByTs_perm (a : Activity) (l : List Activity) :
    (insertByTs a l).Perm (a :: l) := by
  induction l with
  | nil => exact List.Perm.refl _
  | cons b bs ih =>
    unfold insertByTs
    split
    · exact List.Perm.refl _
    · exact (ih.cons b).trans (List.Perm.swap a b bs)

lemma mem_insertByTs {y a : Activity} {l : List Activity} :
    y ∈ insertByTs a l ↔ y = a ∨ y ∈ l := by
  rw [(insertByTs_perm a l).mem_iff]
  simp

lemma pairwise_insertByTs (a : Activity) (l : List Activity) (h : l.Pairwise tsGE) :
    (insertByTs a l).Pairwise tsGE := by
  induction l with
  | nil => simp [insertByTs]
  | cons b bs ih =>
    rcases List.pairwise_cons.mp h with ⟨hb, hbs⟩
    unfold insertByTs
    split
    · rename_i hle
      refine List.Pairwise.cons ?_ h
      intro y hy
      rcases List.mem_cons.mp hy with rfl | hy2
      · exact hle
      · exact le_trans (hb y hy2) hle
    · rename_i hgt
      refine List.Pairwise.cons ?_ (ih hbs)
      intro y hy
      rcases mem_insertByTs.mp hy with rfl | hy2
      · exact le_of_not_le hgt
      · exact hb y hy2

lemma sortFeed_perm (feed : List Activity) : (sortFeed feed).Perm feed := by
  induction feed with
  | nil => exact List.Perm.refl _
  | cons x xs ih =>
    have : sortFeed (x :: xs) = insertByTs x (sortFeed xs) := rfl
    rw [this]
    exact (insertByTs_perm x (sortFeed xs)).trans (ih.cons x)

lemma sortFeed_pairwise (feed : List Activity) : (sortFeed feed).Pairwise tsGE := by
  induction feed with
  | nil => simp [sortFeed]
  | cons x xs ih => exact pairwise_insertByTs x (sortFeed xs) ih

namespace Github

lemma processActivities_append (lf : List Char → List (Nat × List Char))
    (xs ys : List GitHubActivity) :
    processActivities lf (xs ++ ys)
      = processActivities lf xs ++ processActivities lf ys := by
  induction xs with
  | nil => rfl
  | cons a rest ih =>
    simp only [List.cons_append, processActivities]
    cases patch_text lf a
    · exact ih
    · simp [ih]

lemma patch_text_unsupported (lf : List Char → List (Nat × List Char))
    (a : GitHubActivity) (h : a.action ∉ supportedActions) :
    patch_text lf a = .error ⟨a.action⟩ := by
  simp only [supportedActions, List.mem_cons, List.not_mem_nil, or_false, not_or] at h
  obtain ⟨h1, h2, h3, h4, h5, h6, h7, h8, h9⟩ := h
  unfold patch_text
  rw [if_neg h1, if_neg h2, if_neg h3, if_neg h4, if_neg h5, if_neg h6, if_neg h7,
    if_neg h8, if_neg h9]

lemma deserializeBatch_error (raws : List RawGitHubActivity) (r : RawGitHubActivity)
    (hr : r ∈ raws) (hp : parseGithubTimestamp r.created_at = none) :
    ∃ e, deserializeBatch raws = .error e := by
  induction raws with
  | nil => cases hr
  | cons x rest ih =>
    rcases List.mem_cons.mp hr with rfl | hmem
    · refine ⟨"timestamp parse error: ".data ++ r.created_at, ?_⟩
      have hde : deserializeActivity r
          = .error ("timestamp parse error: ".data ++ r.created_at) := by
        simp [deserializeActivity, hp]
      simp only [deserializeBatch, hde]
      rfl
    · cases hde : deserializeActivity x with
      | error e =>
        refine ⟨e, ?_⟩
        simp only [deserializeBatch, hde]
        rfl
      | ok a =>
        rcases ih hmem with ⟨e, he⟩
        refine ⟨e, ?_⟩
        simp only [deserializeBatch, hde, he]
        rfl

end Github

namespace Github

lemma USIZE_val : USIZE = 18446744073709551616 := by decide

lemma linkStep_left_edge (text l : List Char) (start : Nat)
    (hs : start = 0 ∨ start = 1) (hlen : text.length ≤ USIZE - 2) :
    linkStep text (start, l)
      = replaceAll text l ("[".data ++ l ++ "](".data ++ l ++ ")".data) := by
  rcases hs with rfl | rfl
  · have hidx : (0 + (USIZE - 2)) % USIZE = USIZE - 2 := by decide
    have hnone : text[USIZE - 2]? = none :=
      List.getElem?_eq_none hlen
    simp only [linkStep, hidx, hnone]
    simp
  · have hidx : (1 + (USIZE - 2)) % USIZE = USIZE - 1 := by decide
    have hnone : text[USIZE - 1]? = none := by
      apply List.getElem?_eq_none
      have h2 : USIZE - 2 ≤ USIZE - 1 := by decide
      omega
    simp only [linkStep, hidx, hnone]
    simp

lemma linkStep_skip (text l : List Char) (start : Nat)
    (h3 : 3 ≤ start) (hmax : start < USIZE)
    (hch : text[start - 2]? = some ']') :
    linkStep text (start, l) = text := by
  have hU : USIZE = 18446744073709551616 := USIZE_val
  have hidx : (start + (USIZE - 2)) % USIZE = start - 2 := by
    rw [hU] at hmax ⊢
    have h1 : start + (18446744073709551616 - 2) = 18446744073709551616 + (start - 2) := by
      omega
    rw [h1, Nat.add_mod_left, Nat.mod_eq_of_lt (by omega)]
  simp only [linkStep, hidx, hch]
  rw [if_pos ⟨by omega, trivial⟩]

lemma linkPass_cons (text : List Char) (link : Nat × List Char)
    (rest : List (Nat × List Char)) :
    linkPass text (link :: rest) = linkPass (linkStep text link) rest := by
  simp only [linkPass, List.foldl_cons]

end Github


lemma exceptBind_ok {ε α β : Type} (a : α) (f : α → Except ε β) :
    (Except.ok a : Except ε α) >>= f = f a := rfl

lemma exceptBind_error {ε α β : Type} (e : ε) (f : α → Except ε β) :
    (Except.error e : Except ε α) >>= f = Except.error e := rfl


/-- A link finder returning no links, for concrete instantiations. -/
def lfNone : List Char → List (Nat × List Char) := fun _ => []

/-- The links `linkify` finds in `"](https://a.co"`: the URL `https://a.co`
at byte offset 2. -/
def lfAtTwo : List Char → List (Nat × List Char) :=
  fun _ => [(2, "https://a.co".data)]

/-- The links `linkify` finds in `"http://a b"`: the URL `http://a` at byte
offset 0. -/
def lfAtZero : List Char → List (Nat × List Char) :=
  fun _ => [(0, "http://a".data)]

/-- A concrete feed item, varying only in its timestamp. -/
def mkAct (k : Int) : Activity :=
  Activity.new "twitter".data "c".data
    { url := "".data, action := "Tweeted".data, ts := k }

/-- Thirteen concrete feed items with assorted timestamps. -/
def wActs : List Activity :=
  [mkAct 3, mkAct 1, mkAct 4, mkAct 1, mkAct 5, mkAct 9, mkAct 2, mkAct 6,
    mkAct 5, mkAct 3, mkAct 7, mkAct 8, mkAct 0]

/-- C1 counterexample: when all three providers fail, the assembled feed is
empty — fewer than 12 items — and the slice `&feed[0..12]` is out of
bounds, so the run panics (modelled as `none`) instead of completing and
exiting 0; the claim is false as stated. -/
theorem c1_counterexample :
    mainRun (.error "tw down".data) (.error "gh down".data) (.error "dr down".data)
      = none := by decide

/-- C1 (amended): on any combination of provider outcomes whose assembled
feed holds at least 12 items, the run completes — the slice succeeds and
the sorted, truncated feed is handed to serialization. -/
theorem c1_run_completes_with_full_feed
    (tw gh dr : Except (List Char) (List Activity))
    (h : 12 ≤ (assembleFeed tw gh dr).length) :
    mainRun tw gh dr = some ((sortFeed (assembleFeed tw gh dr)).take 12) := by
  have hlen := (sortFeed_perm (assembleFeed tw gh dr)).length_eq
  unfold mainRun sliceTo12
  rw [if_pos (by omega)]

/-- C1 witness: a run in which one provider returns 13 items and the other
two fail completes with the 12 most recent items. -/
theorem c1_witness :
    12 ≤ (assembleFeed (.ok wActs) (.error "gh down".data)
        (.error "dr down".data)).length
    ∧ mainRun (.ok wActs) (.error "gh down".data) (.error "dr down".data)
      = some ((sortFeed (assembleFeed (.ok wActs) (.error "gh down".data)
          (.error "dr down".data))).take 12) :=
  ⟨by decide, c1_run_completes_with_full_feed _ _ _ (by decide)⟩

/-- C5: the sorted feed is ordered by timestamp descending, is a permutation
of its input, and when at least 12 items are present the persisted output is
exactly the first 12 of the sorted list — 12 items, each at least as recent
as every dropped item. -/
theorem c5_feed_sorted_and_truncated (feed : List Activity) :
    (sortFeed feed).Pairwise tsGE
    ∧ (sortFeed feed).Perm feed
    ∧ (12 ≤ feed.length →
        sliceTo12 (sortFeed feed) = some ((sortFeed feed).take 12)
        ∧ ((sortFeed feed).take 12).length = 12
        ∧ ∀ x ∈ (sortFeed feed).take 12, ∀ y ∈ (sortFeed feed).drop 12,
            y.datetime.ts ≤ x.datetime.ts) := by
  refine ⟨sortFeed_pairwise feed, sortFeed_perm feed, fun h12 => ?_⟩
  have hlen : (sortFeed feed).length = feed.length := (sortFeed_perm feed).length_eq
  refine ⟨?_, ?_, ?_⟩
  · unfold sliceTo12
    rw [if_pos (by omega)]
  · rw [List.length_take]
    omega
  · have hp := sortFeed_pairwise feed
    rw [← List.take_append_drop 12 (sortFeed feed)] at hp
    intro x hx y hy
    exact (List.pairwise_append.mp hp).2.2 x hx y hy

/-- C5 witness: the sort and truncation properties instantiated on a
concrete 13-item feed. -/
theorem c5_witness :
    (sortFeed wActs).Pairwise tsGE
    ∧ (sortFeed wActs).Perm wActs
    ∧ (sliceTo12 (sortFeed wActs) = some ((sortFeed wActs).take 12)
        ∧ ((sortFeed wActs).take 12).length = 12
        ∧ ∀ x ∈ (sortFeed wActs).take 12, ∀ y ∈ (sortFeed wActs).drop 12,
            y.datetime.ts ≤ x.datetime.ts) :=
  ⟨(c5_feed_sorted_and_truncated wActs).1, (c5_feed_sorted_and_truncated wActs).2.1,
    (c5_feed_sorted_and_truncated wActs).2.2 (by decide)⟩

/-- C3: a generically detected URL token starting at byte offset 0 or 1
does not make the link loop fail — the wrapped `usize` lookback index is
out of range, the already-linked guard does not fire, and the token is
rewritten to a markdown link `[url](url)`. -/
theorem c3_left_edge_links_are_rewritten (text l : List Char) (start : Nat)
    (rest : List (Nat × List Char)) (hs : start = 0 ∨ start = 1)
    (hlen : text.length ≤ Github.USIZE - 2) :
    Github.linkPass text ((start, l) :: rest)
      = Github.linkPass
          (replaceAll text l ("[".data ++ l ++ "](".data ++ l ++ ")".data)) rest := by
  rw [Github.linkPass_cons, Github.linkStep_left_edge text l start hs hlen]

/-- C3 witness: a URL at offset 0 of a concrete text is rewritten, and the
full `clean_text` transform produces the linked text. -/
theorem c3_witness :
    ((0 : Nat) = 0 ∨ (0 : Nat) = 1)
    ∧ "http://a b".data.length ≤ Github.USIZE - 2
    ∧ Github.linkPass "http://a b".data [(0, "http://a".data)]
      = Github.linkPass
          (replaceAll "http://a b".data "http://a".data
            ("[".data ++ "http://a".data ++ "](".data ++ "http://a".data ++ ")".data)) []
    ∧ Github.clean_text lfAtZero "http://a b".data = "[http://a](http://a) b".data :=
  ⟨Or.inl rfl, by decide,
    c3_left_edge_links_are_rewritten "http://a b".data "http://a".data 0 []
      (Or.inl rfl) (by decide),
    by decide⟩

/-- C6 counterexample: a URL that is already the target of a markdown link
but starts at byte offset exactly 2 — the `](` pattern sits at the very
start of the text — is re-linked by `clean_text` (double-linking), because
the guard requires the lookback index to be positive; the claim is false as
stated. -/
theorem c6_counterexample :
    Github.clean_text lfAtTwo "](https://a.co".data
      = "]([https://a.co](https://a.co)".data
    ∧ Github.clean_text lfAtTwo "](https://a.co".data ≠ "](https://a.co".data :=
  ⟨by decide, by decide⟩

/-- C6 (amended): an already-linked URL occurrence is left unmodified by the
link loop exactly when it starts at byte offset at least 3 — so that the
code's lookback index `start - 2` is positive — and the character at that
index of the working text is `]`. -/
theorem c6_already_linked_skipped_beyond_offset_two (text l : List Char)
    (start : Nat) (rest : List (Nat × List Char)) (h3 : 3 ≤ start)
    (hmax : start < Github.USIZE) (hch : text[start - 2]? = some ']') :
    Github.linkPass text ((start, l) :: rest) = Github.linkPass text rest := by
  rw [Github.linkPass_cons, Github.linkStep_skip text l start h3 hmax hch]

/-- C6 witness: a URL at offset 3 preceded by `](` is skipped by the link
loop. -/
theorem c6_witness :
    3 ≤ (3 : Nat)
    ∧ (3 : Nat) < Github.USIZE
    ∧ "a](https://b.io".data[3 - 2]? = some ']'
    ∧ Github.linkPass "a](https://b.io".data [(3, "https://b.io".data)]
      = Github.linkPass "a](https://b.io".data [] :=
  ⟨le_refl 3, by decide, by decide,
    c6_already_linked_skipped_beyond_offset_two "a](https://b.io".data
      "https://b.io".data 3 [] (le_refl 3) (by decide) (by decide)⟩

/-- A media item whose URL appears in both the basic and the extended media
entity lists of a tweet, with a distinct display form. -/
def mediaBoth : Twitter.Media :=
  { url := "https://t.co/abc".data, display_url := "pic.twitter.com/abc".data,
    expanded_url := "https://twitter.com/x/status/1/photo/1".data }

/-- A tweet whose single media item is listed in both the basic and the
extended media entity lists. -/
def tweetBoth : Twitter.Tweet :=
  .mk "look https://t.co/abc".data "ryan".data [] [] []
    (some [mediaBoth]) (some [mediaBoth]) none

/-- C2 counterexample: for a media URL present in both the basic and the
extended media lists, the transform deletes the URL (the basic pass, which
replaces with the empty string, runs first and leaves nothing for the
extended pass to rewrite); the display-form link the claim promises is not
produced, so the claim is false as stated. -/
theorem c2_counterexample :
    Twitter.patch_text "look https://t.co/abc".data tweetBoth = "look ".data
    ∧ Twitter.patch_text "look https://t.co/abc".data tweetBoth
        ≠ "look [https://pic.twitter.com/abc](https://pic.twitter.com/abc)".data :=
  ⟨by decide, by decide⟩

/-- C2 (amended): when the same media URL appears in both the basic and the
extended media lists, the basic pass runs first and replaces every
occurrence of the URL with the empty string; provided the deletion does not
itself recreate an occurrence of the URL, the extended pass then finds
nothing and the result is the text with the URL removed — the richer
display-form rendering is not applied. -/
theorem c2_media_in_both_lists_is_removed (text dummy sn : List Char)
    (m : Twitter.Media)
    (hgone : hasSub (replaceAll text m.url []) m.url = false) :
    Twitter.patch_text text (.mk dummy sn [] [] [] (some [m]) (some [m]) none)
      = replaceAll text m.url [] := by
  simp only [Twitter.patch_text, Twitter.mentionsPass, Twitter.hashtagsPass,
    Twitter.urlsPass, Twitter.mediaPass, Twitter.extendedMediaPass,
    Twitter.mediaStep, Twitter.extendedMediaStep, List.foldl_cons, List.foldl_nil]
  exact replaceAll_of_hasSub_false _ _ _ hgone

/-- C2 witness: the amended statement at the concrete tweet. -/
theorem c2_witness :
    hasSub (replaceAll "look https://t.co/abc".data mediaBoth.url [])
        mediaBoth.url = false
    ∧ Twitter.patch_text "look https://t.co/abc".data
        (.mk "look https://t.co/abc".data "ryan".data [] [] []
          (some [mediaBoth]) (some [mediaBoth]) none)
      = replaceAll "look https://t.co/abc".data mediaBoth.url [] :=
  ⟨by decide,
    c2_media_in_both_lists_is_removed "look https://t.co/abc".data
      "look https://t.co/abc".data "ryan".data mediaBoth (by decide)⟩

/-- A code-host event that deserializes and converts successfully (a
`PublicEvent` with a valid `created_at`). -/
def rawGood : Github.RawGitHubActivity :=
  { action := "PublicEvent".data, repo := { name := "r".data, url := "u".data },
    payload := Json.obj [("repository".data,
      Json.obj [("full_name".data, Json.str "r/x".data)])],
    created_at := "2019-01-02T03:04:05Z".data }

/-- A code-host event whose `created_at` is not in the expected format (it
uses the microblog provider's format instead). -/
def rawBad : Github.RawGitHubActivity :=
  { action := "PushEvent".data, repo := { name := "r".data, url := "u".data },
    payload := Json.null,
    created_at := "Mon Jan 02 03:04:05 +0000 2019".data }

/-- C4 counterexample: a batch holding one convertible event and one event
with a malformed timestamp fails as a whole — the provider returns an
error and contributes zero items — even though the convertible event alone
would have produced one item; the claim that only the offending item is
dropped is false as stated. -/
theorem c4_counterexample :
    Github.providerRun lfNone [rawGood, rawBad]
      = .error ("timestamp parse error: ".data ++ "Mon Jan 02 03:04:05 +0000 2019".data)
    ∧ Except.map List.length (Github.providerRun lfNone [rawGood]) = .ok 1 :=
  ⟨by decide, by decide⟩

/-- C4 (amended): any batch containing an event whose creation-timestamp
string fails to parse makes the whole provider fail — deserialization of
the response vector is fail-fast — so the provider contributes zero items
(the run itself continues, the error being caught in `main`). -/
theorem c4_timestamp_error_aborts_provider (lf : List Char → List (Nat × List Char))
    (raws : List Github.RawGitHubActivity) (r : Github.RawGitHubActivity)
    (hr : r ∈ raws) (hp : Github.parseGithubTimestamp r.created_at = none) :
    ∃ e, Github.providerRun lf raws = .error e := by
  rcases Github.deserializeBatch_error raws r hr hp with ⟨e, he⟩
  refine ⟨e, ?_⟩
  unfold Github.providerRun
  rw [he]
  rfl

/-- C4 witness: the amended statement at a concrete one-event batch. -/
theorem c4_witness :
    rawBad ∈ [rawBad]
    ∧ Github.parseGithubTimestamp rawBad.created_at = none
    ∧ ∃ e, Github.providerRun lfNone [rawBad] = .error e :=
  ⟨List.mem_singleton.mpr rfl, by decide,
    c4_timestamp_error_aborts_provider lfNone [rawBad] rawBad
      (List.mem_singleton.mpr rfl) (by decide)⟩

/-- A convertible code-host event (`PublicEvent`) after deserialization. -/
def pubAct : Github.GitHubActivity :=
  { action := "PublicEvent".data, repo := { name := "r".data, url := "u".data },
    payload := Json.obj [("repository".data,
      Json.obj [("full_name".data, Json.str "r/x".data)])],
    created_at := 5 }

/-- An event whose type discriminant is outside the supported set. -/
def unkAct : Github.GitHubActivity :=
  { action := "UnknownEventType".data, repo := { name := "r".data, url := "u".data },
    payload := Json.null, created_at := 7 }

/-- C7: dispatch on the event type is closed — an event whose discriminant
is outside the fixed supported set makes `patch_text` return an error
carrying that discriminant, and the conversion loop drops exactly that
event: the output over any surrounding events is unchanged, with no item
produced for the unsupported event and no panic. -/
theorem c7_unsupported_event_skipped (lf : List Char → List (Nat × List Char))
    (xs ys : List Github.GitHubActivity) (a : Github.GitHubActivity)
    (h : a.action ∉ Github.supportedActions) :
    Github.patch_text lf a = .error ⟨a.action⟩
    ∧ Github.processActivities lf (xs ++ a :: ys)
      = Github.processActivities lf xs ++ Github.processActivities lf ys := by
  have hpt := Github.patch_text_unsupported lf a h
  refine ⟨hpt, ?_⟩
  rw [Github.processActivities_append]
  have hskip : Github.processActivities lf (a :: ys) = Github.processActivities lf ys := by
    simp only [Github.processActivities, hpt]
  rw [hskip]

/-- C7 witness: an `UnknownEventType` event surrounded by convertible
events is absent from the output, which still holds the surrounding
items. -/
theorem c7_witness :
    unkAct.action ∉ Github.supportedActions
    ∧ Github.patch_text lfNone unkAct = .error ⟨unkAct.action⟩
    ∧ Github.processActivities lfNone ([pubAct] ++ unkAct :: [pubAct])
      = Github.processActivities lfNone [pubAct]
        ++ Github.processActivities lfNone [pubAct] :=
  ⟨by decide,
    (c7_unsupported_event_skipped lfNone [pubAct] [pubAct] unkAct (by decide)).1,
    (c7_unsupported_event_skipped lfNone [pubAct] [pubAct] unkAct (by decide)).2⟩

/-- C8: for every push event whose `distinct_size` payload field is an
integer `n` in the signed 64-bit range, the produced content pluralizes
`commit` with the singular form exactly when `n = 1`. -/
theorem c8_push_pluralization (lf : List Char → List (Nat × List Char))
    (r : Github.Repository) (t : Int) (n : Int) (bf hd : List Char)
    (hrange : -(2 ^ 63) ≤ n ∧ n < 2 ^ 63) :
    Github.patch_text lf
      { action := "PushEvent".data, repo := r,
        payload := Json.obj [("distinct_size".data, Json.num n),
          ("before".data, Json.str bf), ("head".data, Json.str hd)],
        created_at := t }
      = .ok ("Pushed [".data ++ (toString n).data ++ " commit".data
        ++ (if n = 1 then [] else "s".data)
        ++ "](".data ++ ("https://github.com/".data ++ r.name ++ "/compare/".data
          ++ bf ++ "...".data ++ hd)
        ++ " \"View these changes on GitHub\") to [@".data ++ r.name
        ++ "](https://github.com/".data ++ r.name ++ " \"View ".data
        ++ markdown_link_title_escape r.name ++ " on GitHub\")".data) := by
  have h64 : Json.as_i64 (Json.num n) = some n := by
    simp only [Json.as_i64]
    exact if_pos hrange
  simp only [Github.patch_text]
  rw [if_neg (by decide), if_neg (by decide), if_neg (by decide), if_neg (by decide),
    if_neg (by decide), if_neg (by decide), if_pos (by trivial)]
  rw [show (Json.obj [("distinct_size".data, Json.num n),
      ("before".data, Json.str bf), ("head".data, Json.str hd)]).getKey
        "distinct_size".data = some (Json.num n) from rfl]
  simp only [exceptBind_ok, h64]
  rfl

/-- The repository used by the C8 witness. -/
def repoR : Github.Repository := { name := "r".data, url := "u".data }

/-- The push-event payload used by the C8 witness. -/
def pushPayload (n : Int) : Json :=
  Json.obj [("distinct_size".data, Json.num n),
    ("before".data, Json.str "aaa".data), ("head".data, Json.str "bbb".data)]

/-- C8 witness: count 1 yields `1 commit`, count 2 yields `2 commits`,
count 0 yields `0 commits`. -/
theorem c8_witness :
    (-(2 ^ 63) ≤ (1 : Int) ∧ (1 : Int) < 2 ^ 63)
    ∧ Github.patch_text lfNone
        { action := "PushEvent".data, repo := repoR, payload := pushPayload 1,
          created_at := 9 }
      = .ok "Pushed [1 commit](https://github.com/r/compare/aaa...bbb \"View these changes on GitHub\") to [@r](https://github.com/r \"View r on GitHub\")".data
    ∧ Github.patch_text lfNone
        { action := "PushEvent".data, repo := repoR, payload := pushPayload 2,
          created_at := 9 }
      = .ok "Pushed [2 commits](https://github.com/r/compare/aaa...bbb \"View these changes on GitHub\") to [@r](https://github.com/r \"View r on GitHub\")".data
    ∧ Github.patch_text lfNone
        { action := "PushEvent".data, repo := repoR, payload := pushPayload 0,
          created_at := 9 }
      = .ok "Pushed [0 commits](https://github.com/r/compare/aaa...bbb \"View these changes on GitHub\") to [@r](https://github.com/r \"View r on GitHub\")".data :=
  ⟨by decide,
    (c8_push_pluralization lfNone repoR 9 1 "aaa".data "bbb".data (by decide)).trans
      (by decide),
    (c8_push_pluralization lfNone repoR 9 2 "aaa".data "bbb".data (by decide)).trans
      (by decide),
    (c8_push_pluralization lfNone repoR 9 0 "aaa".data "bbb".data (by decide)).trans
      (by decide)⟩

/-- C9: the escaper equals the spec's independent character-by-character
substitution; its output contains none of the three escaped characters; the
three replacement passes commute — every application order yields the same
result; and the three escape codes are pairwise distinct, so no information
is lost among the three characters. -/
theorem c9_escaper_properties (s : List Char) :
    markdown_link_title_escape s = escapeSpec s
    ∧ (∀ ch ∈ markdown_link_title_escape s, ch ≠ '"' ∧ ch ≠ '(' ∧ ch ≠ ')')
    ∧ escClose (escOpen (escQuote s)) = escapeSpec s
    ∧ escOpen (escClose (escQuote s)) = escapeSpec s
    ∧ escClose (escQuote (escOpen s)) = escapeSpec s
    ∧ escQuote (escClose (escOpen s)) = escapeSpec s
    ∧ escOpen (escQuote (escClose s)) = escapeSpec s
    ∧ escQuote (escOpen (escClose s)) = escapeSpec s
    ∧ escapeChar '"' ≠ escapeChar '(' ∧ escapeChar '"' ≠ escapeChar ')'
    ∧ escapeChar '(' ≠ escapeChar ')' := by
  refine ⟨escaper_eq_spec s, ?_,
    (markdown_link_title_escape_eq_passes s).symm.trans (escaper_eq_spec s),
    order_q_cl_o s, order_o_q_cl s, order_o_cl_q s, order_cl_q_o s, order_cl_o_q s,
    by decide, by decide, by decide⟩
  intro ch hch
  rw [escaper_eq_spec s] at hch
  rcases List.mem_flatMap.mp hch with ⟨c, _, hmem⟩
  exact escapeChar_no_specials c ch hmem

/-- C9 witness: the escaper's properties at a concrete string containing
all three characters. -/
theorem c9_witness :
    markdown_link_title_escape "a\"(b)".data = escapeSpec "a\"(b)".data
    ∧ (∀ ch ∈ markdown_link_title_escape "a\"(b)".data,
        ch ≠ '"' ∧ ch ≠ '(' ∧ ch ≠ ')')
    ∧ escClose (escOpen (escQuote "a\"(b)".data)) = escapeSpec "a\"(b)".data
    ∧ escOpen (escClose (escQuote "a\"(b)".data)) = escapeSpec "a\"(b)".data
    ∧ escClose (escQuote (escOpen "a\"(b)".data)) = escapeSpec "a\"(b)".data
    ∧ escQuote (escClose (escOpen "a\"(b)".data)) = escapeSpec "a\"(b)".data
    ∧ escOpen (escQuote (escClose "a\"(b)".data)) = escapeSpec "a\"(b)".data
    ∧ escQuote (escOpen (escClose "a\"(b)".data)) = escapeSpec "a\"(b)".data
    ∧ escapeChar '"' ≠ escapeChar '(' ∧ escapeChar '"' ≠ escapeChar ')'
    ∧ escapeChar '(' ≠ escapeChar ')' :=
  c9_escaper_properties "a\"(b)".data

/-- C10: every feed item the code-host conversion loop produces carries an
empty per-item source url, regardless of the events' payloads. -/
theorem c10_github_items_have_empty_url (lf : List Char → List (Nat × List Char))
    (acts : List Github.GitHubActivity) (a : Activity)
    (h : a ∈ Github.processActivities lf acts) : a.datetime.url = "".data := by
  induction acts with
  | nil => simp [Github.processActivities] at h
  | cons x rest ih =>
    cases hpt : Github.patch_text lf x with
    | error e =>
      simp only [Github.processActivities, hpt] at h
      exact ih h
    | ok content =>
      simp only [Github.processActivities, hpt] at h
      rcases List.mem_cons.mp h with rfl | hm
      · rfl
      · exact ih hm

/-- C10 witness: the item produced from a concrete `PublicEvent` has an
empty url. -/
theorem c10_witness :
    Activity.new "github".data
        "Open sourced [@r/x](https://github.com/r/x \"View r/x on GitHub\")".data
        { action := "On".data, url := "".data, ts := 5 }
      ∈ Github.processActivities lfNone [pubAct]
    ∧ (Activity.new "github".data
        "Open sourced [@r/x](https://github.com/r/x \"View r/x on GitHub\")".data
        { action := "On".data, url := "".data, ts := 5 }).datetime.url = "".data :=
  ⟨by decide,
    c10_github_items_have_empty_url lfNone [pubAct] _ (by decide)⟩
